import Mathlib

/-!
Shallow embedding of the DUY Energy accumulator (src/app.js).

Timestamps are modelled as integers (milliseconds since epoch); power and
energy are rationals. The calendar date string produced by toISOString is
UTC, so it is modelled as the floor division of the timestamp by the
number of milliseconds in a day. The clock hour produced by getHours is
local time, modelled with an explicit timezone offset tz in milliseconds.
-/

def msPerHour : Int := 1000 * 60 * 60

def msPerDay : Int := 24 * msPerHour

/-- Calendar date index of a timestamp, as produced by
new Date().toISOString().slice(0, 10) in app.js (UTC date). -/
def todayOf (t : Int) : Int := t.fdiv msPerDay

/-- Local clock hour of a timestamp, as produced by
new Date(t).getHours() with timezone offset tz (in milliseconds). -/
def hourOf (tz t : Int) : Int := ((t + tz).fdiv msPerHour) % 24

/-- The mutable state object of app.js: last poll timestamp, last power
reading (W), peak and off-peak energy tallies (kWh), and the date string
(modelled as a date index) of the last update. -/
structure AccumulatorState where
  lastTimestamp : Option Int
  lastPower : ℚ
  picoEnergy : ℚ
  llanoEnergy : ℚ
  day : Option Int
deriving DecidableEq, Repr

/-- The zero-initialized module-level state literal of app.js. -/
def initialState : AccumulatorState :=
  { lastTimestamp := none, lastPower := 0, picoEnergy := 0
    llanoEnergy := 0, day := none }

/-- handleNewPowerMeasurement from src/app.js, lines 88-120. The call
Date.now() is the explicit argument now; the timezone offset tz feeds the
getHours model. -/
def handleNewPowerMeasurement (tz : Int) (power : ℚ) (now : Int)
    (s : AccumulatorState) : AccumulatorState :=
  let today := todayOf now
  let s1 :=
    if s.day.isSome ∧ s.day ≠ some today then
      { s with picoEnergy := 0, llanoEnergy := 0, lastTimestamp := none }
    else s
  let s2 := { s1 with day := some today }
  let s3 :=
    match s2.lastTimestamp with
    | some last =>
      let elapsedHours : ℚ := ((now - last : Int) : ℚ) / (1000 * 60 * 60)
      let energyDelta : ℚ := s2.lastPower * elapsedHours / 1000
      let hour := hourOf tz last
      if 17 ≤ hour ∧ hour < 21 then
        { s2 with picoEnergy := s2.picoEnergy + energyDelta }
      else
        { s2 with llanoEnergy := s2.llanoEnergy + energyDelta }
    | none => s2
  { s3 with lastTimestamp := some now, lastPower := power }

/-- The indice computation of updateMetrics (src/app.js lines 51-62):
percentage of consumption in off-peak hours, 0 when total is not
positive. -/
def usageRatio (s : AccumulatorState) : ℚ :=
  let total := s.picoEnergy + s.llanoEnergy
  if total > 0 then s.llanoEnergy / total * 100 else 0

/-- loadState from src/app.js, lines 25-39, starting from the fresh
module-level state (the situation at startup). The stored argument is
none when localStorage holds nothing under the key, some (Except.error ())
when JSON.parse throws on the stored string, and some (Except.ok p) when
it parses to a snapshot p. Object.assign over the fresh state with a full
snapshot yields the snapshot itself. -/
def loadState (stored : Option (Except Unit AccumulatorState))
    (today : Int) : AccumulatorState :=
  match stored with
  | some (Except.ok parsed) =>
    if parsed.day = some today then parsed else initialState
  | _ => initialState

/-- Outcome of one polling cycle in getShellyStatus: failure covers a
rejected fetch and a response whose body JSON.parse cannot read (both
reach the catch block); success carries data?.data?.device_status?.meters,
each meter contributing its optional power field. -/
inductive PollResult where
  | failure : PollResult
  | success : Option (List (Option ℚ)) → PollResult

/-- Power extraction of getShellyStatus: meters[0].power || 0 when meters
is a non-empty array, otherwise 0. -/
def extractPower : Option (List (Option ℚ)) → ℚ
  | some (m :: _) => m.getD 0
  | _ => 0

/-- getShellyStatus from src/app.js, lines 65-85: on failure the catch
block only logs and the state is untouched; on success the extracted
power is fed to handleNewPowerMeasurement. -/
def getShellyStatus (tz : Int) (r : PollResult) (now : Int)
    (s : AccumulatorState) : AccumulatorState :=
  match r with
  | PollResult.failure => s
  | PollResult.success meters =>
    handleNewPowerMeasurement tz (extractPower meters) now s

/-- Processing a chronological list of (power, timestamp) samples, one
handleNewPowerMeasurement call per sample. -/
def runSamples (tz : Int) (s : AccumulatorState) :
    List (ℚ × Int) → AccumulatorState
  | [] => s
  | (p, t) :: rest => runSamples tz (handleNewPowerMeasurement tz p t s) rest

/-- The per-interval energy delta a sample arriving at time now produces
on state s when no day rollover intervenes: previous power times elapsed
hours over 1000, and 0 when no previous timestamp exists. -/
def stepDelta (s : AccumulatorState) (now : Int) : ℚ :=
  match s.lastTimestamp with
  | some last => s.lastPower * (((now - last : Int) : ℚ) / (1000 * 60 * 60)) / 1000
  | none => 0

/-- Sum of the per-interval energy deltas over a run of samples. -/
def sumDeltas (tz : Int) (s : AccumulatorState) : List (ℚ × Int) → ℚ
  | [] => 0
  | (p, t) :: rest =>
    stepDelta s t + sumDeltas tz (handleNewPowerMeasurement tz p t s) rest

/-- Timestamps of a sample list are non-decreasing, and the first one is
not earlier than the optional lower bound t0 (the last timestamp already
stored in the state, when present). -/
def okFrom : Option Int → List (ℚ × Int) → Bool
  | _, [] => true
  | none, (_, t) :: rest => okFrom (some t) rest
  | some t0, (_, t) :: rest => decide (t0 ≤ t) && okFrom (some t) rest

/-- Characterization of a call when the stored day triggers the rollover
branch: counters reset, then no integration happens because the previous
timestamp was cleared. -/
lemma handle_rollover (tz : Int) (power : ℚ) (now d : Int)
    (s : AccumulatorState) (hd : s.day = some d) (hne : d ≠ todayOf now) :
    handleNewPowerMeasurement tz power now s =
      { lastTimestamp := some now, lastPower := power, picoEnergy := 0
        llanoEnergy := 0, day := some (todayOf now) } := by
  have hcond : s.day.isSome ∧ s.day ≠ some (todayOf now) := by
    simp [hd]
    intro h
    exact hne h
  simp [handleNewPowerMeasurement, if_pos hcond]

/-- Characterization of a call with no previous timestamp and no rollover:
only lastPower, lastTimestamp and day change. -/
lemma handle_first (tz : Int) (power : ℚ) (now : Int)
    (s : AccumulatorState)
    (hday : s.day = none ∨ s.day = some (todayOf now))
    (hts : s.lastTimestamp = none) :
    handleNewPowerMeasurement tz power now s =
      { s with lastTimestamp := some now, lastPower := power
               day := some (todayOf now) } := by
  have hcond : ¬(s.day.isSome ∧ s.day ≠ some (todayOf now)) := by
    rcases hday with h | h <;> simp [h]
  simp [handleNewPowerMeasurement, if_neg hcond, hts]

/-- Characterization of an integrating call whose interval starts in the
peak window: the delta goes to picoEnergy alone. -/
lemma handle_pico (tz : Int) (power : ℚ) (now last : Int)
    (s : AccumulatorState)
    (hday : s.day = none ∨ s.day = some (todayOf now))
    (hts : s.lastTimestamp = some last)
    (hpk : 17 ≤ hourOf tz last ∧ hourOf tz last < 21) :
    handleNewPowerMeasurement tz power now s =
      { s with lastTimestamp := some now, lastPower := power
               day := some (todayOf now)
               picoEnergy := s.picoEnergy +
                 s.lastPower * (((now - last : Int) : ℚ) / (1000 * 60 * 60)) / 1000 } := by
  have hcond : ¬(s.day.isSome ∧ s.day ≠ some (todayOf now)) := by
    rcases hday with h | h <;> simp [h]
  simp [handleNewPowerMeasurement, if_neg hcond, hts, if_pos hpk]

/-- Characterization of an integrating call whose interval starts outside
the peak window: the delta goes to llanoEnergy alone. -/
lemma handle_llano (tz : Int) (power : ℚ) (now last : Int)
    (s : AccumulatorState)
    (hday : s.day = none ∨ s.day = some (todayOf now))
    (hts : s.lastTimestamp = some last)
    (hpk : ¬(17 ≤ hourOf tz last ∧ hourOf tz last < 21)) :
    handleNewPowerMeasurement tz power now s =
      { s with lastTimestamp := some now, lastPower := power
               day := some (todayOf now)
               llanoEnergy := s.llanoEnergy +
                 s.lastPower * (((now - last : Int) : ℚ) / (1000 * 60 * 60)) / 1000 } := by
  have hcond : ¬(s.day.isSome ∧ s.day ≠ some (todayOf now)) := by
    rcases hday with h | h <;> simp [h]
  simp [handleNewPowerMeasurement, if_neg hcond, hts, if_neg hpk]

/-- One call keeps the tallies and the stored power non-negative, provided
the new power is non-negative and time did not run backwards; it always
stores the new timestamp. -/
lemma handle_nonneg_step (tz : Int) (power : ℚ) (now : Int)
    (s : AccumulatorState)
    (h1 : 0 ≤ s.picoEnergy) (h2 : 0 ≤ s.llanoEnergy) (h3 : 0 ≤ s.lastPower)
    (h4 : ∀ t, s.lastTimestamp = some t → t ≤ now) (h5 : 0 ≤ power) :
    0 ≤ (handleNewPowerMeasurement tz power now s).picoEnergy ∧
    0 ≤ (handleNewPowerMeasurement tz power now s).llanoEnergy ∧
    0 ≤ (handleNewPowerMeasurement tz power now s).lastPower ∧
    (handleNewPowerMeasurement tz power now s).lastTimestamp = some now := by
  by_cases hroll : s.day.isSome ∧ s.day ≠ some (todayOf now)
  · obtain ⟨d, hd⟩ := Option.isSome_iff_exists.mp hroll.1
    have hne : d ≠ todayOf now := by
      intro h
      exact hroll.2 (by simp [hd, h])
    rw [handle_rollover tz power now d s hd hne]
    exact ⟨le_refl 0, le_refl 0, h5, rfl⟩
  · have hday : s.day = none ∨ s.day = some (todayOf now) := by
      rcases h : s.day with _ | d
      · exact Or.inl rfl
      · right
        by_contra hne
        exact hroll ⟨by simp [h], by simp [h]; intro he; exact hne (by rw [he])⟩
    have hdelta : ∀ last, s.lastTimestamp = some last →
        0 ≤ s.lastPower * (((now - last : Int) : ℚ) / (1000 * 60 * 60)) / 1000 := by
      intro last hlast
      have hle : (0 : ℚ) ≤ ((now - last : Int) : ℚ) := by
        have h := h4 last hlast
        have h0 : (0 : Int) ≤ now - last := by linarith
        exact_mod_cast h0
      exact div_nonneg (mul_nonneg h3 (div_nonneg hle (by norm_num))) (by norm_num)
    rcases hts : s.lastTimestamp with _ | last
    · rw [handle_first tz power now s hday hts]
      exact ⟨h1, h2, h5, rfl⟩
    · by_cases hpk : 17 ≤ hourOf tz last ∧ hourOf tz last < 21
      · rw [handle_pico tz power now last s hday hts hpk]
        refine ⟨?_, h2, h5, rfl⟩
        show 0 ≤ s.picoEnergy +
          s.lastPower * (((now - last : Int) : ℚ) / (1000 * 60 * 60)) / 1000
        linarith [hdelta last hts]
      · rw [handle_llano tz power now last s hday hts hpk]
        refine ⟨h1, ?_, h5, rfl⟩
        show 0 ≤ s.llanoEnergy +
          s.lastPower * (((now - last : Int) : ℚ) / (1000 * 60 * 60)) / 1000
        linarith [hdelta last hts]

/-- Non-negativity is preserved along any chronological run of
non-negative samples, from any state satisfying the invariant. -/
lemma runSamples_nonneg_aux (tz : Int) (samples : List (ℚ × Int)) :
    ∀ s : AccumulatorState, (∀ pt ∈ samples, 0 ≤ pt.1) →
    okFrom s.lastTimestamp samples = true →
    0 ≤ s.picoEnergy → 0 ≤ s.llanoEnergy → 0 ≤ s.lastPower →
    0 ≤ (runSamples tz s samples).picoEnergy ∧
    0 ≤ (runSamples tz s samples).llanoEnergy := by
  induction samples with
  | nil => intro s _ _ h1 h2 _; exact ⟨h1, h2⟩
  | cons pt rest ih =>
    intro s hp hc h1 h2 h3
    obtain ⟨p, t⟩ := pt
    have h4 : ∀ t0, s.lastTimestamp = some t0 → t0 ≤ t := by
      intro t0 ht0
      rw [ht0] at hc
      simp [okFrom] at hc
      exact hc.1
    have hstep := handle_nonneg_step tz p t s h1 h2 h3 h4
      (hp (p, t) (List.mem_cons_self _ _))
    have hc2 : okFrom (handleNewPowerMeasurement tz p t s).lastTimestamp rest = true := by
      rw [hstep.2.2.2]
      rcases hts : s.lastTimestamp with _ | t0 <;> rw [hts] at hc <;>
        simp [okFrom] at hc ⊢
      · exact hc
      · exact hc.2
    have := ih (handleNewPowerMeasurement tz p t s)
      (fun q hq => hp q (List.mem_cons_of_mem _ hq)) hc2
      hstep.1 hstep.2.1 hstep.2.2.1
    simpa [runSamples] using this

/-- One call with no rollover grows the combined tally by exactly the
per-interval delta, and stamps the day. -/
lemma handle_sum_step (tz : Int) (power : ℚ) (now : Int)
    (s : AccumulatorState)
    (hday : s.day = none ∨ s.day = some (todayOf now)) :
    (handleNewPowerMeasurement tz power now s).picoEnergy +
      (handleNewPowerMeasurement tz power now s).llanoEnergy =
      s.picoEnergy + s.llanoEnergy + stepDelta s now ∧
    (handleNewPowerMeasurement tz power now s).day = some (todayOf now) := by
  rcases hts : s.lastTimestamp with _ | last
  · rw [handle_first tz power now s hday hts]
    simp [stepDelta, hts]
  · by_cases hpk : 17 ≤ hourOf tz last ∧ hourOf tz last < 21
    · rw [handle_pico tz power now last s hday hts hpk]
      simp [stepDelta, hts]
      ring
    · rw [handle_llano tz power now last s hday hts hpk]
      simp [stepDelta, hts]
      ring

/-- Along a run of samples all dated d, starting from a state whose day is
unset or d, the combined tally grows by exactly the sum of the deltas. -/
lemma runSamples_sum_aux (tz d : Int) (samples : List (ℚ × Int)) :
    ∀ s : AccumulatorState, (∀ pt ∈ samples, todayOf pt.2 = d) →
    (s.day = none ∨ s.day = some d) →
    (runSamples tz s samples).picoEnergy + (runSamples tz s samples).llanoEnergy =
      s.picoEnergy + s.llanoEnergy + sumDeltas tz s samples := by
  induction samples with
  | nil => intro s _ _; simp [runSamples, sumDeltas]
  | cons pt rest ih =>
    intro s hd hday
    obtain ⟨p, t⟩ := pt
    have htd : todayOf t = d := hd (p, t) (List.mem_cons_self _ _)
    have hday2 : s.day = none ∨ s.day = some (todayOf t) := by
      rw [htd]; exact hday
    have hstep := handle_sum_step tz p t s hday2
    have hnext : (handleNewPowerMeasurement tz p t s).day = none ∨
        (handleNewPowerMeasurement tz p t s).day = some d := by
      right; rw [hstep.2, htd]
    have := ih (handleNewPowerMeasurement tz p t s)
      (fun q hq => hd q (List.mem_cons_of_mem _ hq)) hnext
    simp only [runSamples, sumDeltas]
    rw [this, hstep.1]
    ring

/-- When the rollover guard is false, the stored day is either unset or
already the current date. -/
lemma no_reset_day_cases (s : AccumulatorState) (today : Int)
    (hroll : ¬(s.day.isSome ∧ s.day ≠ some today)) :
    s.day = none ∨ s.day = some today := by
  by_cases h2 : s.day = some today
  · exact Or.inr h2
  · left
    rcases h : s.day with _ | d
    · rfl
    · exact absurd ⟨by simp [h], h2⟩ hroll

/-- Claim C1, as stated, is false: handleNewPowerMeasurement clamps
neither the power reading nor the elapsed time, so a negative power
reading held over one hour drives llanoEnergy below zero. -/
theorem C1_counterexample :
    (runSamples 0 initialState [(-1000, 0), (0, 3600000)]).llanoEnergy < 0 := by
  have h1 : todayOf 0 = 0 := by decide
  have h2 : todayOf 3600000 = 0 := by decide
  have h3 : hourOf 0 0 = 0 := by decide
  simp [runSamples, handleNewPowerMeasurement, initialState, h1, h2, h3]
  norm_num

/-- Claim C1 amended: starting from the zero-initialized state, for every
sequence of samples whose power values are non-negative and whose
timestamps are non-decreasing, picoEnergy and llanoEnergy stay
non-negative (hence at all times, every prefix being such a sequence). -/
theorem C1_nonneg_of_chrono_nonneg (tz : Int) (samples : List (ℚ × Int))
    (hp : ∀ pt ∈ samples, 0 ≤ pt.1)
    (hc : okFrom none samples = true) :
    0 ≤ (runSamples tz initialState samples).picoEnergy ∧
    0 ≤ (runSamples tz initialState samples).llanoEnergy :=
  runSamples_nonneg_aux tz samples initialState hp hc
    (le_refl 0) (le_refl 0) (le_refl 0)

/-- Witness for C1 on a concrete two-sample run. -/
theorem C1_witness :
    0 ≤ (runSamples 0 initialState [(1000, 0), (500, 3600000)]).picoEnergy ∧
    0 ≤ (runSamples 0 initialState [(1000, 0), (500, 3600000)]).llanoEnergy :=
  C1_nonneg_of_chrono_nonneg 0 [(1000, 0), (500, 3600000)]
    (by decide) (by decide)

/-- Claim C2: with a previous timestamp and no day rollover, the energy
added to one bucket is exactly the previous power reading times the
elapsed hours, divided by 1000; the other bucket is untouched and the
newly reported power does not enter the delta. -/
theorem C2_delta_formula (tz : Int) (power : ℚ) (now last : Int)
    (s : AccumulatorState)
    (hts : s.lastTimestamp = some last)
    (hday : s.day = none ∨ s.day = some (todayOf now)) :
    ((handleNewPowerMeasurement tz power now s).picoEnergy =
        s.picoEnergy +
          s.lastPower * (((now - last : Int) : ℚ) / (1000 * 60 * 60)) / 1000 ∧
      (handleNewPowerMeasurement tz power now s).llanoEnergy = s.llanoEnergy) ∨
    ((handleNewPowerMeasurement tz power now s).picoEnergy = s.picoEnergy ∧
      (handleNewPowerMeasurement tz power now s).llanoEnergy =
        s.llanoEnergy +
          s.lastPower * (((now - last : Int) : ℚ) / (1000 * 60 * 60)) / 1000) := by
  by_cases hpk : 17 ≤ hourOf tz last ∧ hourOf tz last < 21
  · left
    rw [handle_pico tz power now last s hday hts hpk]
    exact ⟨rfl, rfl⟩
  · right
    rw [handle_llano tz power now last s hday hts hpk]
    exact ⟨rfl, rfl⟩

/-- Witness for C2: previous sample at 17:00 UTC of day 0 with 1000 W,
new sample at 17:30; the delta is 1000 multiplied by half an hour over
1000, that is 0.5 kWh. -/
theorem C2_witness :
    ((handleNewPowerMeasurement 0 1000 63000000
        { lastTimestamp := some 61200000, lastPower := 1000, picoEnergy := 0
          llanoEnergy := 0, day := some 0 }).picoEnergy =
        0 + 1000 * (((63000000 - 61200000 : Int) : ℚ) / (1000 * 60 * 60)) / 1000 ∧
      (handleNewPowerMeasurement 0 1000 63000000
        { lastTimestamp := some 61200000, lastPower := 1000, picoEnergy := 0
          llanoEnergy := 0, day := some 0 }).llanoEnergy = 0) ∨
    ((handleNewPowerMeasurement 0 1000 63000000
        { lastTimestamp := some 61200000, lastPower := 1000, picoEnergy := 0
          llanoEnergy := 0, day := some 0 }).picoEnergy = 0 ∧
      (handleNewPowerMeasurement 0 1000 63000000
        { lastTimestamp := some 61200000, lastPower := 1000, picoEnergy := 0
          llanoEnergy := 0, day := some 0 }).llanoEnergy =
        0 + 1000 * (((63000000 - 61200000 : Int) : ℚ) / (1000 * 60 * 60)) / 1000) :=
  C2_delta_formula 0 1000 63000000 61200000 _ rfl (Or.inr (by decide))

/-- Claim C3: the whole delta lands in exactly one bucket, selected only
by the clock hour of the previous timestamp: picoEnergy when that hour
lies in the window from 17 inclusive to 21 exclusive, llanoEnergy
otherwise, and it is never split. -/
theorem C3_bucket_selection (tz : Int) (power : ℚ) (now last : Int)
    (s : AccumulatorState)
    (hts : s.lastTimestamp = some last)
    (hday : s.day = none ∨ s.day = some (todayOf now)) :
    if 17 ≤ hourOf tz last ∧ hourOf tz last < 21 then
      (handleNewPowerMeasurement tz power now s).picoEnergy =
        s.picoEnergy +
          s.lastPower * (((now - last : Int) : ℚ) / (1000 * 60 * 60)) / 1000 ∧
      (handleNewPowerMeasurement tz power now s).llanoEnergy = s.llanoEnergy
    else
      (handleNewPowerMeasurement tz power now s).llanoEnergy =
        s.llanoEnergy +
          s.lastPower * (((now - last : Int) : ℚ) / (1000 * 60 * 60)) / 1000 ∧
      (handleNewPowerMeasurement tz power now s).picoEnergy = s.picoEnergy := by
  by_cases hpk : 17 ≤ hourOf tz last ∧ hourOf tz last < 21
  · rw [if_pos hpk, handle_pico tz power now last s hday hts hpk]
    exact ⟨rfl, rfl⟩
  · rw [if_neg hpk, handle_llano tz power now last s hday hts hpk]
    exact ⟨rfl, rfl⟩

/-- Witness for C3: previous sample at 21:30 UTC of day 0 with 2000 W,
new sample at 22:00; hour 21 is outside the peak window, so the 1 kWh
delta goes to llanoEnergy even though the interval is adjacent to the
boundary. -/
theorem C3_witness :
    if 17 ≤ hourOf 0 77400000 ∧ hourOf 0 77400000 < 21 then
      (handleNewPowerMeasurement 0 2000 79200000
        { lastTimestamp := some 77400000, lastPower := 2000, picoEnergy := 0
          llanoEnergy := 0, day := some 0 }).picoEnergy =
        0 + 2000 * (((79200000 - 77400000 : Int) : ℚ) / (1000 * 60 * 60)) / 1000 ∧
      (handleNewPowerMeasurement 0 2000 79200000
        { lastTimestamp := some 77400000, lastPower := 2000, picoEnergy := 0
          llanoEnergy := 0, day := some 0 }).llanoEnergy = 0
    else
      (handleNewPowerMeasurement 0 2000 79200000
        { lastTimestamp := some 77400000, lastPower := 2000, picoEnergy := 0
          llanoEnergy := 0, day := some 0 }).llanoEnergy =
        0 + 2000 * (((79200000 - 77400000 : Int) : ℚ) / (1000 * 60 * 60)) / 1000 ∧
      (handleNewPowerMeasurement 0 2000 79200000
        { lastTimestamp := some 77400000, lastPower := 2000, picoEnergy := 0
          llanoEnergy := 0, day := some 0 }).picoEnergy = 0 :=
  C3_bucket_selection 0 2000 79200000 77400000 _ rfl (Or.inr (by decide))

/-- Claim C4: when the stored day is set and differs from the date of
now, the tallies are zeroed and the previous timestamp cleared before any
integration, so the call ends with zero tallies, the new timestamp, the
new power and the new date, whatever the previous tallies were. -/
theorem C4_rollover_reset (tz : Int) (power : ℚ) (now d : Int)
    (s : AccumulatorState) (hd : s.day = some d) (hne : d ≠ todayOf now) :
    handleNewPowerMeasurement tz power now s =
      { lastTimestamp := some now, lastPower := power, picoEnergy := 0
        llanoEnergy := 0, day := some (todayOf now) } :=
  handle_rollover tz power now d s hd hne

/-- Witness for C4: a sample on day 1 hitting a state stamped day 0 with
non-zero tallies resets everything and no leftover interval is billed. -/
theorem C4_witness :
    handleNewPowerMeasurement 0 500 90000000
      { lastTimestamp := some 100, lastPower := 50, picoEnergy := 2
        llanoEnergy := 3, day := some 0 } =
      { lastTimestamp := some 90000000, lastPower := 500, picoEnergy := 0
        llanoEnergy := 0, day := some 1 } :=
  C4_rollover_reset 0 500 90000000 0 _ rfl (by decide)

/-- Claim C5, as stated, is false: updateMetrics tests total > 0, not
total ≠ 0, so on the reachable state with llanoEnergy equal to minus one
the reported ratio is 0 although the formula of the claim yields 100. -/
theorem C5_counterexample :
    ((runSamples 0 initialState [(-1000, 0), (0, 3600000)]).picoEnergy +
        (runSamples 0 initialState [(-1000, 0), (0, 3600000)]).llanoEnergy ≠ 0) ∧
    usageRatio (runSamples 0 initialState [(-1000, 0), (0, 3600000)]) = 0 ∧
    (runSamples 0 initialState [(-1000, 0), (0, 3600000)]).llanoEnergy /
        ((runSamples 0 initialState [(-1000, 0), (0, 3600000)]).picoEnergy +
          (runSamples 0 initialState [(-1000, 0), (0, 3600000)]).llanoEnergy) *
        100 = 100 := by
  have hrun : runSamples 0 initialState [(-1000, 0), (0, 3600000)] =
      { lastTimestamp := some 3600000, lastPower := 0, picoEnergy := 0
        llanoEnergy := -1, day := some 0 } := by
    have h1 : todayOf 0 = 0 := by decide
    have h2 : todayOf 3600000 = 0 := by decide
    have h3 : hourOf 0 0 = 0 := by decide
    simp [runSamples, handleNewPowerMeasurement, initialState, h1, h2, h3]
    norm_num
  rw [hrun]
  norm_num [usageRatio]

/-- Claim C5 amended: the reported ratio equals
llanoEnergy / (picoEnergy + llanoEnergy) times 100 whenever the
denominator is positive, and equals 0 whenever it is not positive, in
particular when it is zero. -/
theorem C5_ratio (s : AccumulatorState) :
    (0 < s.picoEnergy + s.llanoEnergy →
      usageRatio s = s.llanoEnergy / (s.picoEnergy + s.llanoEnergy) * 100) ∧
    (¬ 0 < s.picoEnergy + s.llanoEnergy → usageRatio s = 0) := by
  constructor <;> intro h <;> simp [usageRatio, h]

/-- Witness for C5 on a state with tallies 1 and 3: the ratio is 75. -/
theorem C5_witness :
    usageRatio
      { lastTimestamp := none, lastPower := 0, picoEnergy := 1
        llanoEnergy := 3, day := none } = 3 / (1 + 3) * 100 :=
  (C5_ratio _).1 (show (0 : ℚ) < 1 + 3 by norm_num)

/-- Claim C6: loadState keeps a parsed snapshot only when its day equals
the current date; a snapshot of another day, unparseable content and
absent content all leave the fresh zeroed initial state. -/
theorem C6_loadState_same_day_only (p : AccumulatorState) (today : Int) :
    (p.day = some today → loadState (some (Except.ok p)) today = p) ∧
    (p.day ≠ some today → loadState (some (Except.ok p)) today = initialState) ∧
    loadState (some (Except.error ())) today = initialState ∧
    loadState none today = initialState := by
  refine ⟨fun h => ?_, fun h => ?_, rfl, rfl⟩
  · simp [loadState, h]
  · simp [loadState, h]

/-- Witness for C6: a stale snapshot stamped day 5 is discarded when the
current date is day 0. -/
theorem C6_witness :
    loadState
      (some (Except.ok
        { lastTimestamp := some 1, lastPower := 2, picoEnergy := 3
          llanoEnergy := 4, day := some 5 })) 0 = initialState :=
  (C6_loadState_same_day_only _ 0).2.1 (by decide)

/-- Claim C7: over any run of samples all falling on one calendar day,
from a state of that day (or a fresh one) with zero tallies, the final
picoEnergy plus llanoEnergy equals the sum of the per-interval deltas. -/
theorem C7_energy_conservation (tz d : Int) (samples : List (ℚ × Int))
    (s : AccumulatorState)
    (hd : ∀ pt ∈ samples, todayOf pt.2 = d)
    (hday : s.day = none ∨ s.day = some d)
    (hpe : s.picoEnergy = 0) (hle : s.llanoEnergy = 0) :
    (runSamples tz s samples).picoEnergy +
      (runSamples tz s samples).llanoEnergy = sumDeltas tz s samples := by
  rw [runSamples_sum_aux tz d samples s hd hday, hpe, hle]
  ring

/-- Witness for C7 on a concrete two-sample run within day 0. -/
theorem C7_witness :
    (runSamples 0 initialState [(1000, 3600000), (2000, 7200000)]).picoEnergy +
      (runSamples 0 initialState [(1000, 3600000), (2000, 7200000)]).llanoEnergy =
      sumDeltas 0 initialState [(1000, 3600000), (2000, 7200000)] :=
  C7_energy_conservation 0 0 [(1000, 3600000), (2000, 7200000)] initialState
    (by decide) (Or.inl rfl) rfl rfl

/-- Claim C8: when the polling cycle fails, the catch block only logs:
no sample reaches the accumulator and the state is left exactly as it
was, so the next cycle starts from an unchanged state. -/
theorem C8_poll_failure_frame (tz now : Int) (s : AccumulatorState) :
    getShellyStatus tz PollResult.failure now s = s := rfl

/-- Claim C9, as stated, is false: even with no previous timestamp the
call always rewrites day, and a pending rollover zeroes the tallies, as
this day-0 state with tallies 5 and 3 hit by a day-1 sample shows. -/
theorem C9_counterexample :
    ({ lastTimestamp := none, lastPower := 0, picoEnergy := 5
       llanoEnergy := 3, day := some 0 } : AccumulatorState).lastTimestamp =
      none ∧
    (handleNewPowerMeasurement 0 7 86400000
      { lastTimestamp := none, lastPower := 0, picoEnergy := 5
        llanoEnergy := 3, day := some 0 }).picoEnergy ≠ 5 ∧
    (handleNewPowerMeasurement 0 7 86400000
      { lastTimestamp := none, lastPower := 0, picoEnergy := 5
        llanoEnergy := 3, day := some 0 }).day ≠ some 0 := by
  refine ⟨rfl, ?_, ?_⟩ <;>
    rw [handle_rollover 0 7 86400000 0 _ rfl (by decide)]
  · norm_num
  · decide

/-- Claim C9 amended: with no previous timestamp and no pending rollover
(day unset or equal to the current date), the tallies are untouched and
the only fields updated are lastPower, lastTimestamp and day. -/
theorem C9_first_sample_frame (tz : Int) (power : ℚ) (now : Int)
    (s : AccumulatorState)
    (hts : s.lastTimestamp = none)
    (hday : s.day = none ∨ s.day = some (todayOf now)) :
    handleNewPowerMeasurement tz power now s =
      { s with lastTimestamp := some now, lastPower := power
               day := some (todayOf now) } :=
  handle_first tz power now s hday hts

/-- Witness for C9: the very first sample on the fresh state. -/
theorem C9_witness :
    handleNewPowerMeasurement 0 5 0 initialState =
      { initialState with lastTimestamp := some 0, lastPower := 5
                          day := some 0 } :=
  C9_first_sample_frame 0 5 0 initialState rfl (Or.inl rfl)

/-- Claim C10: after every call, day holds the calendar date of now; it
is written unconditionally, also on the very first sample. -/
theorem C10_day_always_current (tz : Int) (power : ℚ) (now : Int)
    (s : AccumulatorState) :
    (handleNewPowerMeasurement tz power now s).day = some (todayOf now) := by
  by_cases hroll : s.day.isSome ∧ s.day ≠ some (todayOf now)
  · obtain ⟨d, hd⟩ := Option.isSome_iff_exists.mp hroll.1
    have hne : d ≠ todayOf now := fun h => hroll.2 (by simp [hd, h])
    rw [handle_rollover tz power now d s hd hne]
  · exact (handle_sum_step tz power now s
      (no_reset_day_cases s (todayOf now) hroll)).2
